import Mathlib

/-!
Verification of the Google Search Takeout donation script
(`src/framework/processing/py/port/script.py`).

The development shallowly embeds the pure core of the script:

* the URL helpers (`urlparse`, `parse_qs`, `unquote_plus` from Python's
  `urllib.parse`, restricted to the behaviour the script exercises),
* timestamp parsing and the CET date-window arithmetic
  (`pd.to_datetime`, `tz_localize`, `tz_convert`, `strftime`),
* the record filter/classifier `extract_search_data` with its two output
  tables,
* the export locator `find_google_search_export` together with
  `parse_google_search_json` and `parse_google_search_html`, and
* the donation payload construction of `process`.

External library behaviour (CPython's `urllib.parse` and `json`, pandas
timestamp handling on the ISO-8601 inputs the parsers produce, and the
BeautifulSoup DOM queries) is embedded per its documented semantics on the
input space the script feeds it; where a library call is modelled as data
(the BeautifulSoup cell structure of an HTML member) this is stated at the
definition.
-/

namespace Port

/-! ### ASCII character classes and low-level list helpers -/

def isAsciiDigit (c : Char) : Bool := '0' ≤ c && c ≤ '9'

def isAsciiAlpha (c : Char) : Bool :=
  ('a' ≤ c && c ≤ 'z') || ('A' ≤ c && c ≤ 'Z')

/-- `scheme_chars` of `urllib.parse`: letters, digits and `+-.`. -/
def isSchemeChar (c : Char) : Bool :=
  isAsciiAlpha c || isAsciiDigit c || c = '+' || c = '-' || c = '.'

def hexDigitVal (c : Char) : Option Nat :=
  if isAsciiDigit c then some (c.toNat - 48)
  else if 'a' ≤ c && c ≤ 'f' then some (c.toNat - 87)
  else if 'A' ≤ c && c ≤ 'F' then some (c.toNat - 55)
  else none

/-- ASCII lowercase of one character (Python `str.lower` on the ASCII
scheme characters the split has already validated). -/
def asciiLower (c : Char) : Char :=
  if 'A' ≤ c && c ≤ 'Z' then Char.ofNat (c.toNat + 32) else c

/-- Split a character list at the first occurrence of `sep`;
`none` when `sep` does not occur. -/
def splitFirst (sep : Char) : List Char → Option (List Char × List Char)
  | [] => none
  | c :: cs =>
    if c = sep then some ([], cs)
    else (splitFirst sep cs).map (fun p => (c :: p.1, p.2))

/-- `str.split(sep)` on a character list (always at least one chunk). -/
def splitAllAux (sep : Char) : List Char → List Char → List (List Char)
  | [], acc => [acc.reverse]
  | c :: cs, acc =>
    if c = sep then acc.reverse :: splitAllAux sep cs []
    else splitAllAux sep cs (c :: acc)

def splitAll (sep : Char) (l : List Char) : List (List Char) :=
  splitAllAux sep l []

/-- Python `str.startswith` (list-based so that it evaluates by
reduction). -/
def pyStartsWith (s pre : String) : Bool :=
  s.toList.take pre.toList.length = pre.toList

/-- Python `str.endswith`. -/
def pyEndsWith (s post : String) : Bool :=
  s.toList.drop (s.toList.length - post.toList.length) = post.toList
    && post.toList.length ≤ s.toList.length

/-- Python `s[n:]`. -/
def pyDrop (s : String) (n : Nat) : String := (s.toList.drop n).asString

/-- Python `s[:-n]` for `0 < n ≤ len(s)`. -/
def pyDropRight (s : String) (n : Nat) : String :=
  (s.toList.take (s.toList.length - n)).asString

/-- Python `str.lower` on the ASCII range (archive member names). -/
def pyLower (s : String) : String := (s.toList.map asciiLower).asString

/-- Remove the first occurrence of `pat` from `l` — Python
`str.replace(pat, "", 1)`. -/
def removeFirstOcc (pat : List Char) : List Char → List Char
  | [] => []
  | c :: cs =>
    if (c :: cs).take pat.length = pat then (c :: cs).drop pat.length
    else c :: removeFirstOcc pat cs

/-! ### UTF-8 decoding

`bytes.decode("utf-8")` (strict mode, used when reading archive members)
and the `errors="replace"` mode used inside `urllib.parse.unquote`. -/

/-- Decode one UTF-8 scalar from the front of a byte list.  Returns the
code point and the remaining bytes; `none` on a malformed prefix
(invalid leading byte, truncated sequence, overlong form, surrogate,
or value above U+10FFFF). -/
def utf8DecodeOne : List UInt8 → Option (Nat × List UInt8)
  | [] => none
  | b :: rest =>
    let n := b.toNat
    if n < 0x80 then some (n, rest)
    else if n < 0xC2 then none
    else if n < 0xE0 then
      match rest with
      | c1 :: r1 =>
        if 0x80 ≤ c1.toNat && c1.toNat < 0xC0 then
          some ((n - 0xC0) * 64 + (c1.toNat - 0x80), r1)
        else none
      | _ => none
    else if n < 0xF0 then
      match rest with
      | c1 :: c2 :: r2 =>
        if (0x80 ≤ c1.toNat && c1.toNat < 0xC0) && (0x80 ≤ c2.toNat && c2.toNat < 0xC0) then
          let v := (n - 0xE0) * 4096 + (c1.toNat - 0x80) * 64 + (c2.toNat - 0x80)
          if v < 0x800 then none
          else if 0xD800 ≤ v && v ≤ 0xDFFF then none
          else some (v, r2)
        else none
      | _ => none
    else if n < 0xF5 then
      match rest with
      | c1 :: c2 :: c3 :: r3 =>
        if (0x80 ≤ c1.toNat && c1.toNat < 0xC0) && (0x80 ≤ c2.toNat && c2.toNat < 0xC0)
            && (0x80 ≤ c3.toNat && c3.toNat < 0xC0) then
          let v := (n - 0xF0) * 262144 + (c1.toNat - 0x80) * 4096
            + (c2.toNat - 0x80) * 64 + (c3.toNat - 0x80)
          if v < 0x10000 || 0x10FFFF < v then none else some (v, r3)
        else none
      | _ => none
    else none

/-- Strict UTF-8 decoding of a whole byte list (`bytes.decode("utf-8")`);
`none` models `UnicodeDecodeError`.  `fuel` bounds the recursion and is
instantiated with the byte count. -/
def utf8DecodeStrictAux : Nat → List UInt8 → Option (List Char)
  | _, [] => some []
  | 0, _ :: _ => none
  | fuel + 1, bs =>
    match utf8DecodeOne bs with
    | none => none
    | some (v, rest) => (utf8DecodeStrictAux fuel rest).map (Char.ofNat v :: ·)

def utf8DecodeStrict (bs : List UInt8) : Option String :=
  (utf8DecodeStrictAux bs.length bs).map List.asString

/-- UTF-8 decoding with `errors="replace"`: a malformed byte becomes
U+FFFD and decoding resumes at the next byte. -/
def utf8DecodeReplaceAux : Nat → List UInt8 → List Char
  | _, [] => []
  | 0, _ :: _ => []
  | fuel + 1, b :: bs =>
    match utf8DecodeOne (b :: bs) with
    | some (v, rest) =>
      -- each decoded scalar consumes at least one byte, so `fuel` suffices
      Char.ofNat v :: utf8DecodeReplaceAux fuel rest
    | none => Char.ofNat 0xFFFD :: utf8DecodeReplaceAux fuel bs

def utf8DecodeReplace (bs : List UInt8) : List Char :=
  utf8DecodeReplaceAux bs.length bs

/-- The UTF-8 bytes of a string (`str.encode("utf-8")`). -/
def strToBytes (s : String) : List UInt8 :=
  (s.toList.map String.utf8EncodeChar).flatten

/-! ### Percent decoding (`urllib.parse.unquote` / `unquote_plus`) -/

/-- Turn a percent-encoded character list into bytes: `%XX` with two hex
digits contributes the byte, anything else contributes its own UTF-8
bytes (a `%` not followed by two hex digits stays literal). -/
def unquoteBytes : List Char → List UInt8
  | [] => []
  | '%' :: a :: b :: rest =>
    match hexDigitVal a, hexDigitVal b with
    | some ha, some hb => UInt8.ofNat (ha * 16 + hb) :: unquoteBytes rest
    | _, _ => String.utf8EncodeChar '%' ++ unquoteBytes (a :: b :: rest)
  | c :: rest => String.utf8EncodeChar c ++ unquoteBytes rest

/-- `urllib.parse.unquote(s, encoding="utf-8", errors="replace")`. -/
def unquote (s : List Char) : List Char :=
  utf8DecodeReplace (unquoteBytes s)

/-- `urllib.parse.unquote_plus`: `+` becomes a space, then unquote. -/
def unquote_plus (s : List Char) : String :=
  (unquote (s.map (fun c => if c = '+' then ' ' else c))).asString

/-! ### Query-string parsing (`urllib.parse.parse_qs`) -/

/-- `parse_qsl(qs)` with the default `keep_blank_values=False`:
split on `&`, skip empty chunks, require an `=`, skip empty values,
percent-decode names and values. -/
def parse_qsl (qs : String) : List (String × String) :=
  (splitAll '&' qs.toList).filterMap fun nv =>
    if nv = [] then none
    else
      match splitFirst '=' nv with
      | none => none
      | some (n, v) =>
        if v = [] then none
        else some (unquote_plus n, unquote_plus v)

/-- Fold `parse_qsl` pairs into a key → values map preserving first-seen
key order (the dict `parse_qs` builds). -/
def qsInsert (acc : List (String × List String)) (kv : String × String) :
    List (String × List String) :=
  if acc.any (fun p => p.1 = kv.1) then
    acc.map (fun p => if p.1 = kv.1 then (p.1, p.2 ++ [kv.2]) else p)
  else acc ++ [(kv.1, [kv.2])]

def parse_qs (qs : String) : List (String × List String) :=
  (parse_qsl qs).foldl qsInsert []

def qsLookup (m : List (String × List String)) (k : String) : Option (List String) :=
  (m.find? (fun p => p.1 = k)).map Prod.snd

/-! ### `urllib.parse.urlsplit` / `urlparse` -/

structure UrlParseResult where
  scheme : String
  netloc : String
  path : String
  params : String
  query : String
  fragment : String
deriving DecidableEq

/-- `_splitnetloc`: the netloc runs from after `//` to the first of
`/?#`. -/
def splitNetloc (l : List Char) : List Char × List Char :=
  (l.takeWhile (fun c => ¬(c = '/' ∨ c = '?' ∨ c = '#')),
   l.dropWhile (fun c => ¬(c = '/' ∨ c = '?' ∨ c = '#')))

/-- `urllib.parse.urlsplit`.  `none` models the `ValueError` raised for a
netloc with an unmatched IPv6 bracket (the bracket-content validation
itself is not modelled; no input of interest carries brackets).  The
WHATWG sanitisation (strip leading C0-control/space, remove tab, CR and
LF) is applied first, as CPython does. -/
def urlsplit? (url : String) : Option (String × String × String × String × String) :=
  let l0 := url.toList.dropWhile (fun c => c.toNat ≤ 0x20)
  let l := l0.filter (fun c => ¬(c = '\t' ∨ c = '\r' ∨ c = '\n'))
  -- scheme: chars before the first ':', if nonempty, ASCII-alpha-led and
  -- all scheme chars
  let (scheme, rest) :=
    match splitFirst ':' l with
    | some (before, after) =>
      match before with
      | [] => ([], l)
      | c0 :: _ =>
        if isAsciiAlpha c0 && before.all isSchemeChar then
          (before.map asciiLower, after)
        else ([], l)
    | none => ([], l)
  -- netloc after a leading //
  let (netloc, rest2) :=
    match rest with
    | '/' :: '/' :: tail => splitNetloc tail
    | _ => ([], rest)
  if (netloc.contains '[' && !netloc.contains ']')
      || (netloc.contains ']' && !netloc.contains '[') then none
  else
    -- fragment is split off before the query, as in CPython
    let (rest3, fragment) :=
      match splitFirst '#' rest2 with
      | some (a, b) => (a, b)
      | none => (rest2, [])
    let (path, query) :=
      match splitFirst '?' rest3 with
      | some (a, b) => (a, b)
      | none => (rest3, [])
    some (scheme.asString, netloc.asString, path.asString, query.asString,
      fragment.asString)

/-- `_splitparams`: split `;params` off the last path segment. -/
def splitParams (path : List Char) : List Char × List Char :=
  if path.contains '/' then
    -- look for ';' only in the segment after the last '/'
    match splitFirst '/' path.reverse with
    | some (revSeg, revInit) =>
      match splitFirst ';' revSeg.reverse with
      | some (a, b) => (revInit.reverse ++ '/' :: a, b)
      | none => (path, [])
    | none => (path, [])
  else
    match splitFirst ';' path with
    | some (a, b) => (a, b)
    | none => (path, [])

/-- `urllib.parse.urlparse`. -/
def urlparse? (url : String) : Option UrlParseResult :=
  (urlsplit? url).map fun r =>
    let (scheme, netloc, path, query, fragment) := r
    let (p, params) :=
      if path.toList.contains ';' then splitParams path.toList
      else (path.toList, [])
    ⟨scheme, netloc, p.asString, params.asString, query, fragment⟩

/-! ### Decimal rendering (Python `str(i)` on a nonnegative integer) -/

def decDigitsAux : Nat → Nat → List Char
  | 0, _ => []
  | _ + 1, 0 => []
  | fuel + 1, n + 1 =>
    decDigitsAux fuel ((n + 1) / 10) ++ [Nat.digitChar ((n + 1) % 10)]

/-- Decimal string of a natural number, as Python `str`. -/
def pyStr (n : Nat) : String :=
  if n = 0 then "0" else (decDigitsAux n n).asString

/-! ### Timestamps

`pd.to_datetime` on the ISO-8601 strings the exports carry
(`YYYY-MM-DD`, optionally `T`/space, `HH:MM[:SS[.ffffff]]`, optionally
`Z` or a `±HH[:MM]` offset).  Resolution is modelled to the microsecond,
which is exact for every input in scope. -/

structure PTimestamp where
  year : Nat
  month : Nat
  day : Nat
  hour : Nat
  minute : Nat
  second : Nat
  usec : Nat
  /-- minutes east of UTC; `none` for a timezone-naive timestamp -/
  tzOffsetMin : Option Int
deriving DecidableEq

def expectChar (c : Char) : List Char → Option (List Char)
  | x :: xs => if x = c then some xs else none
  | [] => none

def readFixedDigitsAux : Nat → Nat → List Char → Option (Nat × List Char)
  | 0, acc, l => some (acc, l)
  | k + 1, acc, l =>
    match l with
    | c :: cs =>
      if isAsciiDigit c then readFixedDigitsAux k (acc * 10 + (c.toNat - 48)) cs
      else none
    | [] => none

def readFixedDigits (k : Nat) (l : List Char) : Option (Nat × List Char) :=
  readFixedDigitsAux k 0 l

def isLeapYear (y : Nat) : Bool :=
  y % 4 = 0 && (y % 100 ≠ 0 || y % 400 = 0)

def daysInMonth (y m : Nat) : Nat :=
  if m = 2 then (if isLeapYear y then 29 else 28)
  else if m = 4 ∨ m = 6 ∨ m = 9 ∨ m = 11 then 30
  else 31

/-- Digits of a fraction `.dddddd` as microseconds (truncated beyond six
digits; the script never compares below microseconds). -/
def fracToUsec (ds : List Char) : Nat :=
  let ds6 := ds.take 6
  let v := ds6.foldl (fun a c => a * 10 + (c.toNat - 48)) 0
  v * 10 ^ (6 - ds6.length)

/-- UTC offset tail: `HH`, `HH:MM` or `HHMM`. -/
def parseTzHM (l : List Char) : Option Nat := do
  let (h, r) ← readFixedDigits 2 l
  if h ≥ 24 then none
  else
    match r with
    | [] => some (h * 60)
    | ':' :: r2 => do
      let (m, r3) ← readFixedDigits 2 r2
      if r3 = [] ∧ m < 60 then some (h * 60 + m) else none
    | r2 => do
      let (m, r3) ← readFixedDigits 2 r2
      if r3 = [] ∧ m < 60 then some (h * 60 + m) else none

def parseTzTail : List Char → Option (Option Int)
  | [] => some none
  | ['Z'] => some (some 0)
  | '+' :: t => (parseTzHM t).map (fun m => some (Int.ofNat m))
  | '-' :: t => (parseTzHM t).map (fun m => some (-(Int.ofNat m : Int)))
  | _ => none

def parseClockTail (y mo d : Nat) (l : List Char) : Option PTimestamp := do
  let (h, r1) ← readFixedDigits 2 l
  let r2 ← expectChar ':' r1
  let (mi, r3) ← readFixedDigits 2 r2
  if h ≥ 24 ∨ mi ≥ 60 then none
  else
    -- optional seconds
    let (se, r4) ←
      match r3 with
      | ':' :: t => do
        let (se, r4) ← readFixedDigits 2 t
        if se ≥ 60 then none else some (se, r4)
      | _ => some (0, r3)
    -- optional fraction
    let (us, r5) ←
      match r4 with
      | '.' :: t =>
        let ds := t.takeWhile isAsciiDigit
        if ds = [] then none
        else some (fracToUsec ds, t.dropWhile isAsciiDigit)
      | _ => some (0, r4)
    let tz ← parseTzTail r5
    some ⟨y, mo, d, h, mi, se, us, tz⟩

/-- `pd.to_datetime` on one ISO-8601 string; `none` models the
`ValueError` pandas raises on an unparseable input. -/
def pd_to_datetime (s : String) : Option PTimestamp := do
  let l := s.toList.dropWhile (fun c => c = ' ')
  let l := (l.reverse.dropWhile (fun c => c = ' ')).reverse
  let (y, r1) ← readFixedDigits 4 l
  let r2 ← expectChar '-' r1
  let (mo, r3) ← readFixedDigits 2 r2
  let r4 ← expectChar '-' r3
  let (d, r5) ← readFixedDigits 2 r4
  if mo = 0 ∨ mo > 12 ∨ d = 0 ∨ d > daysInMonth y mo then none
  else
    match r5 with
    | [] => some ⟨y, mo, d, 0, 0, 0, 0, none⟩
    | sep :: rest =>
      if sep = 'T' ∨ sep = ' ' then parseClockTail y mo d rest else none

/-- Days since 1970-01-01 of a civil date (Howard Hinnant's
`days_from_civil`, specialised to the years a four-digit parse allows). -/
def daysFromCivil (y m d : Nat) : Int :=
  let y2 : Nat := if m ≤ 2 then y - 1 else y
  let era := y2 / 400
  let yoe := y2 % 400
  let mp : Nat := if m ≥ 3 then m - 3 else m + 9
  let doy := (153 * mp + 2) / 5 + (d - 1)
  let doe := yoe * 365 + yoe / 4 - yoe / 100 + doy
  (era * 146097 + doe : Int) - 719468

/-- The instant of a timestamp in microseconds since the epoch, with a
timezone-naive value localised to UTC — exactly the quantity the
script's date filter compares after its `tz_localize("UTC")` /
`tz_convert("CET")` normalisation (`tz_convert` never changes the
instant). -/
def filterInstant (t : PTimestamp) : Int :=
  (daysFromCivil t.year t.month t.day * 86400
    + (t.hour * 3600 + t.minute * 60 + t.second : Nat)) * 1000000
    + t.usec - t.tzOffsetMin.getD 0 * 60 * 1000000

/-- `start_dt = pd.to_datetime("2025-01-12").tz_localize("CET")`
(CET is UTC+1 on that date), as an instant. -/
def start_dt : Int := filterInstant ⟨2025, 1, 12, 0, 0, 0, 0, some 60⟩

/-- `end_dt = pd.to_datetime("2025-03-02").tz_localize("CET") +
pd.Timedelta(days=1)` — adding the timedelta advances the instant by
exactly 24 hours (no DST transition lies in between). -/
def end_dt : Int := filterInstant ⟨2025, 3, 2, 0, 0, 0, 0, some 60⟩ + 86400 * 1000000

def pad2 (n : Nat) : String := if n < 10 then "0" ++ pyStr n else pyStr n

def pad4 (n : Nat) : String :=
  if n < 10 then "000" ++ pyStr n
  else if n < 100 then "00" ++ pyStr n
  else if n < 1000 then "0" ++ pyStr n
  else pyStr n

/-- `timestamp.strftime("%d-%m-%Y")`: the civil fields of the timestamp
as parsed (pandas formats an aware timestamp in its own zone and a naive
one as-is; no conversion is applied here, mirroring the script). -/
def strftime_dmY (t : PTimestamp) : String :=
  pad2 t.day ++ "-" ++ pad2 t.month ++ "-" ++ pad4 t.year

/-- Civil date (y, m, d) from days since the epoch (Howard Hinnant's
`civil_from_days`, for nonnegative day counts). -/
def civilFromDays (z0 : Nat) : Nat × Nat × Nat :=
  let z := z0 + 719468
  let era := z / 146097
  let doe := z % 146097
  let yoe := (doe - doe / 1460 + doe / 36524 - doe / 146096) / 365
  let doy := doe - (365 * yoe + yoe / 4 - yoe / 100)
  let mp := (5 * doy + 2) / 153
  let d := doy - (153 * mp + 2) / 5 + 1
  let m := if mp < 10 then mp + 3 else mp - 9
  (yoe + era * 400 + (if m ≤ 2 then 1 else 0), m, d)

/-- The CET civil date of an instant inside the studied window
(CET = UTC+01:00 there; the DST switch of 2025-03-30 lies outside). -/
def cetCivilDate (usecInstant : Int) : Nat × Nat × Nat :=
  civilFromDays (((usecInstant / 1000000 + 3600) / 86400).toNat)

/-- The CET civil date rendered like `strftime("%d-%m-%Y")`, for
comparison against the emitted date strings. -/
def cetCivilDmY (usecInstant : Int) : String :=
  let (y, m, d) := cetCivilDate usecInstant
  pad2 d ++ "-" ++ pad2 m ++ "-" ++ pad4 y

/-! ### URL classifier (`is_google_search_url`, `resolve_google_redirect`,
`format_title`, `is_google_homepage`) -/

/-- `is_google_search_url(url)`: `(is_search, query)`.  Parse failures
(the caught `ValueError`/`AttributeError`/`TypeError`) yield
`(False, None)`. -/
def is_google_search_url (url : String) : Bool × Option String :=
  if url = "" then (false, none)
  else
    match urlparse? url with
    | none => (false, none)
    | some p =>
      if p.netloc = "" then (false, none)
      else if pyStartsWith p.netloc "www.google." && p.path = "/search" then
        match qsLookup (parse_qs p.query) "q" with
        | some (v :: _) => (true, some v)
        | _ => (false, none)
      else (false, none)

/-- `resolve_google_redirect(url)`.  The inner `urlparse` call is not
guarded in the script, but every URL reaching it already survived the
guarded `is_google_homepage` parse of the same string in the first loop,
so the parse cannot fail there; the `none` branch is therefore dead and
returns the input unchanged. -/
def resolve_google_redirect (url : String) : String :=
  match urlparse? url with
  | none => url
  | some p =>
    if pyStartsWith p.netloc "www.google." && p.path = "/url" then
      match qsLookup (parse_qs p.query) "q" with
      | some (v :: _) => v
      | _ => url
    else url

/-- `format_title(title)`: the netloc with the first occurrence of
`"www."` removed (`str.replace("www.", "", 1)`) when the title parses
as an absolute http/https URL, the title itself otherwise (also on
parse failure, which the script catches). -/
def format_title (title : String) : String :=
  match urlparse? title with
  | none => title
  | some p =>
    if p.netloc ≠ "" && (p.scheme = "http" || p.scheme = "https") then
      (removeFirstOcc "www.".toList p.netloc.toList).asString
    else title

/-- `is_google_homepage(url)`; `none` models the uncaught-in-the-helper
`ValueError` of `urlparse`, which the caller's `except` swallows by
dropping the record. -/
def is_google_homepage? (url : String) : Option Bool :=
  (urlparse? url).map fun p =>
    pyStartsWith p.netloc "www.google." && (p.path = "/" || p.path = "")

/-! ### The activity classifier (`extract_search_data`) -/

/-- A canonical activity record: the five fields `extract_search_data`
reads, each `none` when the key is absent from the dict.  Field values,
when present, are strings (resp. a string list), as both parsers
produce. -/
structure Item where
  header : Option String
  title : Option String
  titleUrl : Option String
  time : Option String
  products : Option (List String)
deriving DecidableEq

/-- The `all(key in item for key in [...])` presence test. -/
def wfItem (it : Item) : Bool :=
  it.header.isSome && it.title.isSome && it.titleUrl.isSome
    && it.time.isSome && it.products.isSome

/-- The homepage test applied after the title rewrite; `(item, True)`
keeps the (possibly title-rewritten) record, `(item, False)` drops it
(also on the caught parse `ValueError`). -/
def stepHome (item : Item) : Item × Bool :=
  match is_google_homepage? (item.titleUrl.getD "") with
  | some false => (item, true)
  | _ => (item, false)

/-- One iteration of the first loop of `extract_search_data` (lines
333–365): returns the post-iteration state of the dict (the title may
have been rewritten in place) and whether the record was appended to
`records`. -/
def step (item : Item) : Item × Bool :=
  if wfItem item then
    match pd_to_datetime (item.time.getD "") with
    | none => (item, false)
    | some ts =>
      if filterInstant ts < start_dt ∨ filterInstant ts > end_dt then (item, false)
      else
        let t := item.title.getD ""
        if pyStartsWith t "Visited " then
          stepHome { item with title := some (pyDrop t 8) }
        else if pyEndsWith t " aufgerufen" then
          stepHome { item with title := some (pyDropRight t 11) }
        else if pyStartsWith t "Viewed " || pyEndsWith t " angesehen" then
          (item, false)
        else stepHome item
  else (item, false)

/-- The first loop over the input list: the post-loop state of the
caller's list (the dicts are mutated in place) and the `records`
accumulator. -/
def pass1 : List Item → List Item × List Item
  | [] => ([], [])
  | it :: rest =>
    let (it2, keep) := step it
    let (post, recs) := pass1 rest
    (it2 :: post, if keep then it2 :: recs else recs)

/-- Rows as the dicts the script appends (insertion-ordered key/value
pairs). -/
def Row : Type := List (String × String)

instance : DecidableEq Row := inferInstanceAs (DecidableEq (List (String × String)))

/-- The second loop (`enumerate(records, start=1)`): builds the
`searches` and `clicks` row lists.  The `time` re-parse cannot fail for
a record the first loop kept (the parse is deterministic); the dead
branch emits an empty date. -/
def pass2 : Nat → List Item → List Row × List Row
  | _, [] => ([], [])
  | i, it :: rest =>
    let date :=
      match pd_to_datetime (it.time.getD "") with
      | some ts => strftime_dmY ts
      | none => ""
    let index := pyStr i
    let final_url := resolve_google_redirect (it.titleUrl.getD "")
    let r := is_google_search_url final_url
    let (s, c) := pass2 (i + 1) rest
    if r.1 then
      (([("Datum", date), ("Nummer", index), ("Suchbegriff", r.2.getD "")] : Row) :: s, c)
    else
      (s, ([("Datum", date), ("Nummer", index),
        ("Suchergebnis", format_title (it.title.getD "")), ("Link", final_url)] : Row) :: c)

/-- A dataframe: a column list and the rows (each still an
insertion-ordered dict; cells are read by key lookup). -/
structure DataFrame where
  columns : List String
  rows : List Row
deriving DecidableEq

/-- `pd.DataFrame(rows)`: columns are the union of the dict keys in
first-appearance order. -/
def pdDataFrame (rows : List Row) : DataFrame :=
  ⟨rows.foldl (fun acc row =>
      row.foldl (fun a kv => if a.contains kv.1 then a else a ++ [kv.1]) acc) [],
    rows⟩

/-- `df.reindex(columns=cs)` forces the column list (the row dicts keep
their entries; cells of a missing column read as absent/NaN). -/
def DataFrame.reindex (df : DataFrame) (cs : List String) : DataFrame :=
  ⟨cs, df.rows⟩

def searchCols : List String := ["Datum", "Nummer", "Suchbegriff"]

def clickCols : List String := ["Datum", "Nummer", "Suchergebnis", "Link"]

/-- A Python value handed to `extract_search_data`: a list of activity
dicts, or one of the non-list shapes the error-handling contract names. -/
inductive PyValue where
  | vlist (items : List Item)
  | vnone
  | vstr (s : String)
  | vint (n : Int)
  | vdict
deriving DecidableEq

/-- `extract_search_data(data)` (lines 300–393). -/
def extract_search_data (data : PyValue) : DataFrame × DataFrame :=
  match data with
  | .vlist items =>
    let records := (pass1 items).2
    let (searches, clicks) := pass2 1 records
    ((pdDataFrame searches).reindex searchCols,
      (pdDataFrame clicks).reindex clickCols)
  | _ => (⟨searchCols, []⟩, ⟨clickCols, []⟩)

/-- The state of the caller-supplied list after `extract_search_data`
returns: the in-place title rewrites of the first loop are visible to
the caller. -/
def extract_input_after (items : List Item) : List Item :=
  (pass1 items).1

/-! ### JSON (`json.load` / `json.dumps`, as the script uses them) -/

inductive JValue where
  | jnull
  | jbool (b : Bool)
  | jnum (raw : String)
  | jstr (s : String)
  | jarr (elems : List JValue)
  | jobj (fields : List (String × JValue))

def isJsonWs (c : Char) : Bool := c = ' ' ∨ c = '\t' ∨ c = '\n' ∨ c = '\r'

def skipWs (l : List Char) : List Char := l.dropWhile isJsonWs

/-- Parse a JSON string body after the opening quote.  Python's decoder
keeps lone surrogates in the resulting `str`; a Lean `Char` cannot hold
one, so a lone surrogate decodes to U+FFFD here (no input of interest
contains any). -/
def jparseStringAux : Nat → List Char → Option (List Char × List Char)
  | 0, _ => none
  | fuel + 1, l =>
    match l with
    | '"' :: rest => some ([], rest)
    | '\\' :: e :: rest =>
      let simple : Option (Char × List Char) :=
        if e = '"' then some ('"', rest)
        else if e = '\\' then some ('\\', rest)
        else if e = '/' then some ('/', rest)
        else if e = 'b' then some (Char.ofNat 8, rest)
        else if e = 'f' then some (Char.ofNat 12, rest)
        else if e = 'n' then some ('\n', rest)
        else if e = 'r' then some ('\r', rest)
        else if e = 't' then some ('\t', rest)
        else none
      match simple with
      | some (c, r) =>
        (jparseStringAux fuel r).map (fun p => (c :: p.1, p.2))
      | none =>
        if e = 'u' then
          match rest with
          | h1 :: h2 :: h3 :: h4 :: r4 =>
            match hexDigitVal h1, hexDigitVal h2, hexDigitVal h3, hexDigitVal h4 with
            | some a, some b, some c, some d =>
              let v := a * 4096 + b * 256 + c * 16 + d
              if 0xD800 ≤ v ∧ v ≤ 0xDBFF then
                -- try to pair with a low surrogate
                match r4 with
                | '\\' :: 'u' :: g1 :: g2 :: g3 :: g4 :: r8 =>
                  match hexDigitVal g1, hexDigitVal g2, hexDigitVal g3, hexDigitVal g4 with
                  | some a2, some b2, some c2, some d2 =>
                    let w := a2 * 4096 + b2 * 256 + c2 * 16 + d2
                    if 0xDC00 ≤ w ∧ w ≤ 0xDFFF then
                      let cp := 0x10000 + (v - 0xD800) * 1024 + (w - 0xDC00)
                      (jparseStringAux fuel r8).map (fun p => (Char.ofNat cp :: p.1, p.2))
                    else
                      (jparseStringAux fuel r4).map (fun p => (Char.ofNat 0xFFFD :: p.1, p.2))
                  | _, _, _, _ =>
                    (jparseStringAux fuel r4).map (fun p => (Char.ofNat 0xFFFD :: p.1, p.2))
                | _ =>
                  (jparseStringAux fuel r4).map (fun p => (Char.ofNat 0xFFFD :: p.1, p.2))
              else if 0xDC00 ≤ v ∧ v ≤ 0xDFFF then
                (jparseStringAux fuel r4).map (fun p => (Char.ofNat 0xFFFD :: p.1, p.2))
              else
                (jparseStringAux fuel r4).map (fun p => (Char.ofNat v :: p.1, p.2))
            | _, _, _, _ => none
          | _ => none
        else none
    | c :: rest =>
      if c.toNat < 0x20 then none
      else (jparseStringAux fuel rest).map (fun p => (c :: p.1, p.2))
    | [] => none

/-- Lex a JSON number, returning its raw lexeme. -/
def jparseNumber (l : List Char) : Option (List Char × List Char) :=
  let (neg, l1) := match l with | '-' :: t => (['-'], t) | _ => ([], l)
  let intPart : Option (List Char × List Char) :=
    match l1 with
    | '0' :: t => some (['0'], t)
    | c :: _ =>
      if isAsciiDigit c ∧ c ≠ '0' then
        some (l1.takeWhile isAsciiDigit, l1.dropWhile isAsciiDigit)
      else none
    | [] => none
  match intPart with
  | none => none
  | some (ip, r1) =>
    let (fp, r2) :=
      match r1 with
      | '.' :: t =>
        if t.takeWhile isAsciiDigit = [] then ([], r1)
        else ('.' :: t.takeWhile isAsciiDigit, t.dropWhile isAsciiDigit)
      | _ => ([], r1)
    -- a dot not followed by digits is a syntax error
    match r1 with
    | '.' :: t =>
      if t.takeWhile isAsciiDigit = [] then none
      else jparseNumberExp (neg ++ ip ++ fp) r2
    | _ => jparseNumberExp (neg ++ ip ++ fp) r2
where
  jparseNumberExp (acc : List Char) (r : List Char) : Option (List Char × List Char) :=
    match r with
    | e :: t =>
      if e = 'e' ∨ e = 'E' then
        let (sgn, t1) := match t with
          | '+' :: t2 => (['+'], t2)
          | '-' :: t2 => (['-'], t2)
          | _ => ([], t)
        let ds := t1.takeWhile isAsciiDigit
        if ds = [] then none
        else some (acc ++ e :: sgn ++ ds, t1.dropWhile isAsciiDigit)
      else some (acc, r)
    | [] => some (acc, r)

mutual

/-- Recursive-descent JSON value parse; `fuel` dominates both nesting
depth and item count (each unit spent consumes input). -/
def jparse : Nat → List Char → Option (JValue × List Char)
  | 0, _ => none
  | fuel + 1, l =>
    let l := skipWs l
    match l with
    | '"' :: rest =>
      (jparseStringAux rest.length rest).map (fun p => (.jstr p.1.asString, p.2))
    | '\x7b' :: rest => jparseObjBody fuel rest
    | '[' :: rest => jparseArrBody fuel rest
    | 't' :: 'r' :: 'u' :: 'e' :: r => some (.jbool true, r)
    | 'f' :: 'a' :: 'l' :: 's' :: 'e' :: r => some (.jbool false, r)
    | 'n' :: 'u' :: 'l' :: 'l' :: r => some (.jnull, r)
    | _ => (jparseNumber l).map (fun p => (.jnum p.1.asString, p.2))

def jparseArrBody : Nat → List Char → Option (JValue × List Char)
  | 0, _ => none
  | fuel + 1, l =>
    match skipWs l with
    | ']' :: r => some (.jarr [], r)
    | l2 =>
      match jparse fuel l2 with
      | none => none
      | some (v, r) => jparseArrRest fuel [v] r

def jparseArrRest : Nat → List JValue → List Char → Option (JValue × List Char)
  | 0, _, _ => none
  | fuel + 1, acc, l =>
    match skipWs l with
    | ',' :: r =>
      match jparse fuel r with
      | none => none
      | some (v, r2) => jparseArrRest fuel (acc ++ [v]) r2
    | ']' :: r => some (.jarr acc, r)
    | _ => none

def jparseObjBody : Nat → List Char → Option (JValue × List Char)
  | 0, _ => none
  | fuel + 1, l =>
    match skipWs l with
    | '\x7d' :: r => some (.jobj [], r)
    | '"' :: rest =>
      match jparseStringAux rest.length rest with
      | none => none
      | some (k, r) =>
        match skipWs r with
        | ':' :: r2 =>
          match jparse fuel r2 with
          | none => none
          | some (v, r3) => jparseObjRest fuel [(k.asString, v)] r3
        | _ => none
    | _ => none

def jparseObjRest : Nat → List (String × JValue) → List Char → Option (JValue × List Char)
  | 0, _, _ => none
  | fuel + 1, acc, l =>
    match skipWs l with
    | ',' :: r =>
      match skipWs r with
      | '"' :: rest =>
        match jparseStringAux rest.length rest with
        | none => none
        | some (k, r2) =>
          match skipWs r2 with
          | ':' :: r3 =>
            match jparse fuel r3 with
            | none => none
            | some (v, r4) => jparseObjRest fuel (acc ++ [(k.asString, v)]) r4
          | _ => none
      | _ => none
    | '\x7d' :: r => some (.jobj acc, r)
    | _ => none

end

/-- `json.loads` on text: parse one value, allow only trailing
whitespace. -/
def jsonLoads (s : String) : Option JValue :=
  match jparse (2 * s.length + 4) s.toList with
  | some (v, rest) => if skipWs rest = [] then some v else none
  | none => none

/-- `json.load` on an archive member's bytes (UTF-8; a decode failure
and a parse failure are both observed by the locator loop as
"skip this member"). -/
def json_load_bytes (bs : List UInt8) : Option JValue :=
  (utf8DecodeStrict bs).bind jsonLoads

def hexDigitCharLower (n : Nat) : Char :=
  if n < 10 then Char.ofNat (48 + n) else Char.ofNat (87 + n)

def jsonUHex4 (v : Nat) : List Char :=
  ['\\', 'u', hexDigitCharLower (v / 4096 % 16), hexDigitCharLower (v / 256 % 16),
   hexDigitCharLower (v / 16 % 16), hexDigitCharLower (v % 16)]

/-- One character escaped as `json.dumps` (default `ensure_ascii=True`)
renders it. -/
def jsonEscapeChar (c : Char) : List Char :=
  if c = '"' then ['\\', '"']
  else if c = '\\' then ['\\', '\\']
  else if c = '\n' then ['\\', 'n']
  else if c = '\r' then ['\\', 'r']
  else if c = '\t' then ['\\', 't']
  else if c.toNat = 8 then ['\\', 'b']
  else if c.toNat = 12 then ['\\', 'f']
  else if c.toNat < 0x20 then jsonUHex4 c.toNat
  else if c.toNat < 0x7F then [c]
  else if c.toNat < 0x10000 then jsonUHex4 c.toNat
  else
    let v := c.toNat - 0x10000
    jsonUHex4 (0xD800 + v / 1024) ++ jsonUHex4 (0xDC00 + v % 1024)

def jsonDumpString (s : String) : String :=
  ('"' :: (s.toList.map jsonEscapeChar).flatten ++ ['"']).asString

/-- `json.dumps` with its default separators.  `fuel` bounds nesting and
is ample for every value the script serialises (the dead fuel-0 branch
returns the empty string). -/
def json_dumps_core : Nat → JValue → String
  | _, .jnull => "null"
  | _, .jbool true => "true"
  | _, .jbool false => "false"
  | _, .jnum raw => raw
  | _, .jstr s => jsonDumpString s
  | 0, .jarr _ => ""
  | 0, .jobj _ => ""
  | fuel + 1, .jarr xs =>
    "[" ++ String.intercalate ", " (xs.map (json_dumps_core fuel)) ++ "]"
  | fuel + 1, .jobj fs =>
    "\x7b" ++ String.intercalate ", "
      (fs.map (fun kv => jsonDumpString kv.1 ++ ": " ++ json_dumps_core fuel kv.2)) ++ "\x7d"

def json_dumps (v : JValue) : String := json_dumps_core 100 v

/-! ### The format parsers and the archive locator -/

def jobjHasKey (fields : List (String × JValue)) (k : String) : Bool :=
  fields.any (fun p => p.1 = k)

def jobjGet (fields : List (String × JValue)) (k : String) : Option JValue :=
  (fields.find? (fun p => p.1 = k)).map Prod.snd

/-- `parse_google_search_json` (lines 408–437) on a member's bytes: load
the JSON; require a nonempty array whose first element is an object
carrying the five canonical keys and whose `products` contains a
recognised search-product marker; return the array's elements.  A
non-object first element or a non-array `products` ends in the caught
`TypeError`/`KeyError` path, i.e. `None`. -/
def parse_google_search_json (content : List UInt8) : Option (List JValue) :=
  match json_load_bytes content with
  | none => none
  | some data =>
    match data with
    | .jarr (first :: rest) =>
      match first with
      | .jobj fields =>
        if (["header", "title", "time", "products", "titleUrl"].all
              (jobjHasKey fields))
            && (match jobjGet fields "products" with
                | some (.jarr ps) =>
                  ps.any (fun p =>
                    match p with
                    | .jstr s => s = "Search" || s = "Google Suche"
                    | _ => false)
                | _ => false) then
          some (first :: rest)
        else none
      | _ => none
    | _ => none

/-- A `content-cell` div as BeautifulSoup exposes it to the script: the
`href` of its first anchor (if any) and its `stripped_strings`. -/
structure ContentCell where
  anchorHref : Option String
  strippedStrings : List String
deriving DecidableEq

/-- An `outer-cell` div: the stripped texts of its `.header-cell`
matches and its `.content-cell` children, in document order. -/
structure OuterCell where
  headerTexts : List String
  contentCells : List ContentCell
deriving DecidableEq

/-- A canonical activity record as the HTML parser builds it. -/
structure Activity where
  header : String
  title : String
  titleUrl : String
  time : String
  products : List String
deriving DecidableEq

def readVarDigits (maxLen : Nat) (l : List Char) : Option (Nat × List Char) :=
  let ds := l.takeWhile isAsciiDigit
  if ds = [] ∨ ds.length > maxLen then none
  else some (ds.foldl (fun a c => a * 10 + (c.toNat - 48)) 0, l.dropWhile isAsciiDigit)

/-- `dateutil.parser.parse(s, tzinfos={"MEZ": Europe/Berlin}, dayfirst=True)`
modelled on the day-first German Takeout format
`D.M.YYYY, H:MM:SS[ MEZ]`; `MEZ` names Central European winter time,
UTC+01:00.  Anything else fails (the caught `ParserError`). -/
def parse_de_timestamp (s : String) : Option PTimestamp := do
  let (d, r1) ← readVarDigits 2 s.toList
  let r2 ← expectChar '.' r1
  let (mo, r3) ← readVarDigits 2 r2
  let r4 ← expectChar '.' r3
  let (y, r5) ← readFixedDigits 4 r4
  if mo = 0 ∨ mo > 12 ∨ d = 0 ∨ d > daysInMonth y mo then none
  else do
    let r6 ← expectChar ',' r5
    let r7 ← expectChar ' ' r6
    let (h, r8) ← readVarDigits 2 r7
    let r9 ← expectChar ':' r8
    let (mi, r10) ← readFixedDigits 2 r9
    let r11 ← expectChar ':' r10
    let (se, r12) ← readFixedDigits 2 r11
    if h ≥ 24 ∨ mi ≥ 60 ∨ se ≥ 60 then none
    else
      match r12 with
      | [] => some ⟨y, mo, d, h, mi, se, 0, none⟩
      | [' ', 'M', 'E', 'Z'] => some ⟨y, mo, d, h, mi, se, 0, some 60⟩
      | _ => none

/-- `timestamp.isoformat()` for the timestamps the HTML parser builds
(whole seconds; offsets rendered `±HH:MM`). -/
def isoformat (t : PTimestamp) : String :=
  let base := pad4 t.year ++ "-" ++ pad2 t.month ++ "-" ++ pad2 t.day ++ "T"
    ++ pad2 t.hour ++ ":" ++ pad2 t.minute ++ ":" ++ pad2 t.second
  match t.tzOffsetMin with
  | none => base
  | some off =>
    let sign := if off < 0 then "-" else "+"
    let a := off.natAbs
    base ++ sign ++ pad2 (a / 60) ++ ":" ++ pad2 (a % 60)

/-- `parse_google_search_html` (lines 440–508) over the `outer-cell`
blocks BeautifulSoup finds in the member's HTML text. -/
def parse_google_search_html (cells : List OuterCell) : Option (List Activity) :=
  let activities := cells.filterMap fun cell =>
    match cell.headerTexts with
    | [] => none  -- IndexError on .select(".header-cell")[0], caught
    | header :: _ =>
      if header ≠ "Google Suche" ∧ header ≠ "Search" then none
      else
        match cell.contentCells with
        | [] => none  -- IndexError on .select(".content-cell")[0], caught
        | content :: _ =>
          let title_url := content.anchorHref.getD ""
          match content.strippedStrings with
          | [p1, p2, p3] =>
            match parse_de_timestamp p3 with
            | none => none
            | some ts =>
              some ⟨header, p1 ++ " " ++ p2, title_url, isoformat ts, ["Google Suche"]⟩
          | _ => none
  if activities = [] then none else some activities

/-- One member of the zip archive: its name, raw bytes, and the
`outer-cell` structure BeautifulSoup produces when the bytes are parsed
as HTML (the DOM extraction of the external library is supplied as
data; it is consulted only after the member's bytes decode as UTF-8,
exactly as the script feeds the decoded text to BeautifulSoup). -/
structure ZipEntry where
  name : String
  content : List UInt8
  htmlCells : List OuterCell
deriving DecidableEq

/-- The outcome of `find_google_search_export`: the returned data, or
one of the two raised errors. -/
inductive LocateResult where
  | foundJson (data : List JValue)
  | foundHtml (data : List Activity)
  | noSearchData
  | takeoutNotFound

/-- Occurrence of `pat` as a contiguous run of `l`. -/
def listHasRun (pat : List Char) : List Char → Bool
  | [] => pat = []
  | c :: cs => (c :: cs).take pat.length = pat || listHasRun pat cs

/-- `"Google" in content` (case-sensitive substring test). -/
def containsGoogle (s : String) : Bool :=
  listHasRun "Google".toList s.toList

/-- `find_google_search_export` (lines 511–566): JSON-named members
through the JSON parser in listing order, then HTML-named members
through the HTML parser; if neither produced data, `NoSearchData` when
some HTML member's decoded text contains `"Google"`, else
`TakeoutNotFound`.  Undecodable members are skipped in every loop. -/
def find_google_search_export (entries : List ZipEntry) : LocateResult :=
  let json_files := entries.filter (fun e => pyEndsWith (pyLower e.name) ".json")
  let html_files := entries.filter (fun e => pyEndsWith (pyLower e.name) ".html")
  match json_files.findSome? (fun e => parse_google_search_json e.content) with
  | some data => .foundJson data
  | none =>
    match html_files.findSome? (fun e =>
        (utf8DecodeStrict e.content).bind (fun _ => parse_google_search_html e.htmlCells)) with
    | some acts => .foundHtml acts
    | none =>
      if html_files.any (fun e =>
          match utf8DecodeStrict e.content with
          | some txt => containsGoogle txt
          | none => false) then
        .noSearchData
      else .takeoutNotFound

/-! ### The donation payloads of `process` -/

/-- Line 77: `value = json.dumps('\x7b"status" : "no-search-data"\x7d')`
— note the argument is a Python *string literal*, not a dict. -/
def no_search_data_value : String :=
  json_dumps (.jstr "\x7b\"status\" : \"no-search-data\"\x7d")

/-- Line 89: `value = json.dumps('\x7b"status" : "no-google-takeout-found"\x7d')`. -/
def no_takeout_found_value : String :=
  json_dumps (.jstr "\x7b\"status\" : \"no-google-takeout-found\"\x7d")

/-- The donation key `f"\x7bsessionId\x7d-\x7bkey\x7d"` with
`key = "google-search-history"`. -/
def donation_key (sessionId : String) : String :=
  sessionId ++ "-" ++ "google-search-history"

/-! ### Helper lemmas -/

/-- Decimal value of a digit string (left inverse of `pyStr`). -/
def decVal (l : List Char) : Nat :=
  l.foldl (fun a c => a * 10 + (c.toNat - 48)) 0

theorem decVal_append_digit (l : List Char) (c : Char) :
    decVal (l ++ [c]) = decVal l * 10 + (c.toNat - 48) := by
  simp [decVal, List.foldl_append]

theorem digitChar_toNat_sub (d : Nat) (h : d < 10) :
    (Nat.digitChar d).toNat - 48 = d := by
  revert h
  revert d
  decide

theorem decVal_decDigitsAux (fuel : Nat) :
    ∀ n, n ≤ fuel → decVal (decDigitsAux fuel n) = n := by
  induction fuel with
  | zero =>
    intro n hn
    interval_cases n
    simp [decDigitsAux, decVal]
  | succ fuel ih =>
    intro n hn
    match n with
    | 0 => simp [decDigitsAux, decVal]
    | m + 1 =>
      have hdiv : (m + 1) / 10 ≤ fuel := by
        have : (m + 1) / 10 < m + 1 := Nat.div_lt_self (Nat.succ_pos m) (by omega)
        omega
      have hmod : (m + 1) % 10 < 10 := Nat.mod_lt _ (by omega)
      calc decVal (decDigitsAux (fuel + 1) (m + 1))
          = decVal (decDigitsAux fuel ((m + 1) / 10) ++ [Nat.digitChar ((m + 1) % 10)]) := by
            rfl
        _ = decVal (decDigitsAux fuel ((m + 1) / 10)) * 10
              + ((Nat.digitChar ((m + 1) % 10)).toNat - 48) := decVal_append_digit _ _
        _ = (m + 1) / 10 * 10 + (m + 1) % 10 := by
            rw [ih _ hdiv, digitChar_toNat_sub _ hmod]
        _ = m + 1 := by omega

theorem decVal_pyStr (n : Nat) : decVal (pyStr n).toList = n := by
  by_cases h : n = 0
  · subst h; decide
  · have : pyStr n = (decDigitsAux n n).asString := by simp [pyStr, h]
    rw [this]
    have : (decDigitsAux n n).asString.toList = decDigitsAux n n := rfl
    rw [this]
    exact decVal_decDigitsAux n n (Nat.le_refl n)

theorem pyStr_inj {m n : Nat} (h : pyStr m = pyStr n) : m = n := by
  have := decVal_pyStr m
  rw [h, decVal_pyStr] at this
  omega

/-- `step` never changes any field of the dict except possibly `title`. -/
theorem step_preserves (it : Item) :
    (step it).1.header = it.header ∧ (step it).1.titleUrl = it.titleUrl
      ∧ (step it).1.time = it.time ∧ (step it).1.products = it.products := by
  refine ⟨?_, ?_, ?_, ?_⟩ <;> simp only [step, stepHome] <;> repeat' split
  all_goals rfl

/-- A record kept by `step` passed the date-window test on its parsed
time. -/
theorem step_kept_window (it : Item) (h : (step it).2 = true) :
    ∃ ts, pd_to_datetime (it.time.getD "") = some ts ∧
      start_dt ≤ filterInstant ts ∧ filterInstant ts ≤ end_dt := by
  rcases hts : pd_to_datetime (it.time.getD "") with _ | ts
  · simp only [step, stepHome, hts] at h
    split at h <;> simp at h
  · simp only [step, stepHome, hts] at h
    repeat' split at h
    all_goals try simp at h
    all_goals exact ⟨ts, rfl, by omega, by omega⟩

/-- Unfolding lemma for the first loop (holds definitionally by
structure eta). -/
theorem pass1_cons (it : Item) (rest : List Item) :
    pass1 (it :: rest) = ((step it).1 :: (pass1 rest).1,
      if (step it).2 then (step it).1 :: (pass1 rest).2 else (pass1 rest).2) := rfl

/-- Membership in the `records` accumulator of the first loop. -/
theorem pass1_mem_records (items : List Item) (r : Item)
    (h : r ∈ (pass1 items).2) : ∃ it ∈ items, step it = (r, true) := by
  induction items with
  | nil => simp [pass1] at h
  | cons it rest ih =>
    rw [pass1_cons] at h
    by_cases hk : (step it).2 = true
    · rw [if_pos hk] at h
      rcases List.mem_cons.mp h with h | h
      · exact ⟨it, List.mem_cons_self it rest, by subst h; rw [← hk]⟩
      · obtain ⟨x, hx, hs⟩ := ih h
        exact ⟨x, List.mem_cons_of_mem _ hx, hs⟩
    · rw [if_neg hk] at h
      obtain ⟨x, hx, hs⟩ := ih h
      exact ⟨x, List.mem_cons_of_mem _ hx, hs⟩

/-- The date string the second loop renders for a record. -/
def dateOf (it : Item) : String :=
  match pd_to_datetime (it.time.getD "") with
  | some ts => strftime_dmY ts
  | none => ""

/-- The effective link of a record after redirect resolution. -/
def finalUrlOf (it : Item) : String :=
  resolve_google_redirect (it.titleUrl.getD "")

/-- Whether the second loop classifies a record as a search. -/
def isSearchRec (it : Item) : Bool :=
  (is_google_search_url (finalUrlOf it)).1

/-- The search row the second loop appends for record number `i`. -/
def searchRowOf (i : Nat) (it : Item) : Row :=
  [("Datum", dateOf it), ("Nummer", pyStr i),
   ("Suchbegriff", (is_google_search_url (finalUrlOf it)).2.getD "")]

/-- The click row the second loop appends for record number `i`. -/
def clickRowOf (i : Nat) (it : Item) : Row :=
  [("Datum", dateOf it), ("Nummer", pyStr i),
   ("Suchergebnis", format_title (it.title.getD "")), ("Link", finalUrlOf it)]

/-- Unfolding lemma for the second loop. -/
theorem pass2_cons (i : Nat) (it : Item) (rest : List Item) :
    pass2 i (it :: rest) =
      (if isSearchRec it then
        (searchRowOf i it :: (pass2 (i + 1) rest).1, (pass2 (i + 1) rest).2)
      else
        ((pass2 (i + 1) rest).1, clickRowOf i it :: (pass2 (i + 1) rest).2)) := rfl

/-- A record classified as a search contributes its search row, at its
shared one-based index, to the `searches` list. -/
theorem pass2_mem_search (recs : List Item) : ∀ (i k : Nat) (hk : k < recs.length),
    isSearchRec (recs.get ⟨k, hk⟩) = true →
      searchRowOf (i + k) (recs.get ⟨k, hk⟩) ∈ (pass2 i recs).1 := by
  induction recs with
  | nil => intro i k hk; simp at hk
  | cons it rest ih =>
    intro i k hk hs
    match k with
    | 0 =>
      rw [pass2_cons]
      simp only [List.get] at hs ⊢
      rw [if_pos hs]
      exact List.mem_cons_self _ _
    | k + 1 =>
      rw [pass2_cons]
      simp only [List.get] at hs ⊢
      have hmem := ih (i + 1) k (Nat.lt_of_succ_lt_succ hk) hs
      have harith : i + 1 + k = i + (k + 1) := by omega
      rw [harith] at hmem
      by_cases h0 : isSearchRec it
      · rw [if_pos h0]; exact List.mem_cons_of_mem _ hmem
      · rw [if_neg h0]; exact hmem

/-- A record not classified as a search contributes its click row, at
its shared one-based index, to the `clicks` list. -/
theorem pass2_mem_click (recs : List Item) : ∀ (i k : Nat) (hk : k < recs.length),
    isSearchRec (recs.get ⟨k, hk⟩) = false →
      clickRowOf (i + k) (recs.get ⟨k, hk⟩) ∈ (pass2 i recs).2 := by
  induction recs with
  | nil => intro i k hk; simp at hk
  | cons it rest ih =>
    intro i k hk hs
    match k with
    | 0 =>
      rw [pass2_cons]
      simp only [List.get] at hs ⊢
      rw [if_neg (by simp [hs])]
      exact List.mem_cons_self _ _
    | k + 1 =>
      rw [pass2_cons]
      simp only [List.get] at hs ⊢
      have hmem := ih (i + 1) k (Nat.lt_of_succ_lt_succ hk) hs
      have harith : i + 1 + k = i + (k + 1) := by omega
      rw [harith] at hmem
      by_cases h0 : isSearchRec it
      · rw [if_pos h0]; exact hmem
      · rw [if_neg h0]; exact List.mem_cons_of_mem _ hmem

/-- The index cell of a row. -/
def rowNummer (r : Row) : String := (r.lookup "Nummer").getD ""

theorem rowNummer_search (i : Nat) (it : Item) :
    rowNummer (searchRowOf i it) = pyStr i := by
  simp [rowNummer, searchRowOf, List.lookup]

theorem rowNummer_click (i : Nat) (it : Item) :
    rowNummer (clickRowOf i it) = pyStr i := by
  simp [rowNummer, clickRowOf, List.lookup]

/-- The index cells of the two output row lists are, together, a
permutation of `pyStr i, ..., pyStr (i + n - 1)`. -/
theorem pass2_nummer_perm (recs : List Item) : ∀ i : Nat,
    ((pass2 i recs).1.map rowNummer ++ (pass2 i recs).2.map rowNummer).Perm
      ((List.range' i recs.length).map pyStr) := by
  induction recs with
  | nil => intro i; simp [pass2]
  | cons it rest ih =>
    intro i
    rw [pass2_cons]
    by_cases h0 : isSearchRec it
    · rw [if_pos h0]
      simp only [List.map_cons, List.cons_append, List.length_cons, List.range']
      exact (List.Perm.cons _ (ih (i + 1))).trans
        (by rw [rowNummer_search]  )
    · rw [if_neg h0]
      simp only [List.map_cons, List.length_cons, List.range']
      refine List.perm_middle.trans ?_
      rw [rowNummer_click]
      exact List.Perm.cons _ (ih (i + 1))

/-- Every search row originates from a record, with the date rendered
from that record's re-parsed, unconverted time. -/
theorem pass2_search_src (recs : List Item) : ∀ (i : Nat) (row : Row),
    row ∈ (pass2 i recs).1 → ∃ it ∈ recs, row.lookup "Datum" = some (dateOf it) := by
  induction recs with
  | nil => intro i row h; simp [pass2] at h
  | cons it rest ih =>
    intro i row h
    rw [pass2_cons] at h
    by_cases h0 : isSearchRec it
    · rw [if_pos h0] at h
      rcases List.mem_cons.mp h with h | h
      · exact ⟨it, List.mem_cons_self _ _, by
          subst h; simp [searchRowOf, List.lookup]⟩
      · obtain ⟨x, hx, hs⟩ := ih (i + 1) row h
        exact ⟨x, List.mem_cons_of_mem _ hx, hs⟩
    · rw [if_neg h0] at h
      obtain ⟨x, hx, hs⟩ := ih (i + 1) row h
      exact ⟨x, List.mem_cons_of_mem _ hx, hs⟩

/-- Every click row originates from a record, with the date rendered
from that record's re-parsed, unconverted time. -/
theorem pass2_click_src (recs : List Item) : ∀ (i : Nat) (row : Row),
    row ∈ (pass2 i recs).2 → ∃ it ∈ recs, row.lookup "Datum" = some (dateOf it) := by
  induction recs with
  | nil => intro i row h; simp [pass2] at h
  | cons it rest ih =>
    intro i row h
    rw [pass2_cons] at h
    by_cases h0 : isSearchRec it
    · rw [if_pos h0] at h
      obtain ⟨x, hx, hs⟩ := ih (i + 1) row h
      exact ⟨x, List.mem_cons_of_mem _ hx, hs⟩
    · rw [if_neg h0] at h
      rcases List.mem_cons.mp h with h | h
      · exact ⟨it, List.mem_cons_self _ _, by
          subst h; simp [clickRowOf, List.lookup]⟩
      · obtain ⟨x, hx, hs⟩ := ih (i + 1) row h
        exact ⟨x, List.mem_cons_of_mem _ hx, hs⟩

/-- The output tables carry exactly the second loop's row lists. -/
theorem extract_rows_eq (items : List Item) :
    (extract_search_data (.vlist items)).1.rows = (pass2 1 (pass1 items).2).1
      ∧ (extract_search_data (.vlist items)).2.rows = (pass2 1 (pass1 items).2).2 :=
  ⟨rfl, rfl⟩

/-- The homepage filter never changes the record it is given. -/
theorem stepHome_fst (x : Item) : (stepHome x).1 = x := by
  simp only [stepHome]
  split <;> rfl

/-- The post-loop input list is the per-item post-state, in order. -/
theorem pass1_fst (items : List Item) :
    (pass1 items).1 = items.map (fun it => (step it).1) := by
  induction items with
  | nil => rfl
  | cons it rest ih => rw [pass1_cons, List.map_cons, ih]

/-! ### The claims -/

/-- C1: every record `extract_search_data` keeps has a parseable time
whose instant (naive times read as UTC; aware times converted to CET,
which leaves the instant unchanged) lies in the inclusive window from
2025-01-12 00:00 CET to the end of March 2 (i.e. 2025-03-02 24:00 CET);
and at the boundaries, a record at exactly 2025-01-12T00:00:00 CET is
kept, one at 2025-01-11T23:59:59 CET is dropped, one at
2025-03-02T23:59:59 CET is kept, and one at 2025-03-03T00:00:01 CET is
dropped. -/
theorem claim_C1 :
    (∀ (items : List Item) (r : Item), r ∈ (pass1 items).2 →
        ∃ ts, pd_to_datetime (r.time.getD "") = some ts ∧
          start_dt ≤ filterInstant ts ∧ filterInstant ts ≤ end_dt)
    ∧ (extract_search_data (.vlist [⟨some "Search", some "Boundary a",
        some "https://www.google.com/search?q=a",
        some "2025-01-12T00:00:00+01:00", some ["Search"]⟩])).1.rows.length = 1
    ∧ extract_search_data (.vlist [⟨some "Search", some "Boundary b",
        some "https://www.google.com/search?q=b",
        some "2025-01-11T23:59:59+01:00", some ["Search"]⟩])
        = (⟨searchCols, []⟩, ⟨clickCols, []⟩)
    ∧ (extract_search_data (.vlist [⟨some "Search", some "Boundary c",
        some "https://www.google.com/search?q=c",
        some "2025-03-02T23:59:59+01:00", some ["Search"]⟩])).1.rows.length = 1
    ∧ extract_search_data (.vlist [⟨some "Search", some "Boundary d",
        some "https://www.google.com/search?q=d",
        some "2025-03-03T00:00:01+01:00", some ["Search"]⟩])
        = (⟨searchCols, []⟩, ⟨clickCols, []⟩) := by
  refine ⟨?_, by decide, by decide, by decide, by decide⟩
  intro items r h
  obtain ⟨it, _, hs⟩ := pass1_mem_records items r h
  have hw := step_kept_window it (by rw [hs])
  have hp := (step_preserves it).2.2.1
  rw [hs] at hp
  rw [← hp] at hw
  exact hw

/-- Witness for C1: the universal part applied to a concrete
one-record list whose record survives extraction. -/
theorem claim_C1_witness :
    ∃ ts, pd_to_datetime ((Item.mk (some "Search") (some "Normal")
        (some "https://example.com/x") (some "2025-02-01T10:00:00Z")
        (some ["Search"])).time.getD "") = some ts ∧
      start_dt ≤ filterInstant ts ∧ filterInstant ts ≤ end_dt :=
  claim_C1.1
    [⟨some "Search", some "Normal", some "https://example.com/x",
      some "2025-02-01T10:00:00Z", some ["Search"]⟩]
    ⟨some "Search", some "Normal", some "https://example.com/x",
      some "2025-02-01T10:00:00Z", some ["Search"]⟩
    (by decide)

/-- C6: a non-list input yields two empty tables that still carry the
fixed column sets, and the fixed column sets are present for every list
input as well (in particular whenever either table is empty). -/
theorem claim_C6 :
    (∀ v : PyValue, (∀ items, v ≠ PyValue.vlist items) →
        extract_search_data v = (⟨searchCols, []⟩, ⟨clickCols, []⟩))
    ∧ ∀ items : List Item,
        (extract_search_data (.vlist items)).1.columns = searchCols
          ∧ (extract_search_data (.vlist items)).2.columns = clickCols := by
  constructor
  · intro v hv
    cases v with
    | vlist items => exact absurd rfl (hv items)
    | vnone => rfl
    | vstr s => rfl
    | vint n => rfl
    | vdict => rfl
  · intro items
    exact ⟨rfl, rfl⟩

/-- Witness for C6: the four non-list inputs named by the spec. -/
theorem claim_C6_witness :
    extract_search_data PyValue.vnone = (⟨searchCols, []⟩, ⟨clickCols, []⟩)
    ∧ extract_search_data (PyValue.vstr "string") = (⟨searchCols, []⟩, ⟨clickCols, []⟩)
    ∧ extract_search_data (PyValue.vint 123) = (⟨searchCols, []⟩, ⟨clickCols, []⟩)
    ∧ extract_search_data PyValue.vdict = (⟨searchCols, []⟩, ⟨clickCols, []⟩)
    ∧ (extract_search_data (PyValue.vlist [])).1.columns = searchCols :=
  ⟨claim_C6.1 PyValue.vnone (fun _ h => PyValue.noConfusion h),
   claim_C6.1 (PyValue.vstr "string") (fun _ h => PyValue.noConfusion h),
   claim_C6.1 (PyValue.vint 123) (fun _ h => PyValue.noConfusion h),
   claim_C6.1 PyValue.vdict (fun _ h => PyValue.noConfusion h),
   (claim_C6.2 []).1⟩

/-- C7 (code bug): `format_title` removes the *first* occurrence of
`"www."` anywhere in the netloc (`str.replace("www.", "", 1)`), not
only a leading prefix as both the spec and the script's own comment
("Remove 'www.' prefix if it exists") describe: a host such as
`en.www.example.com`, which has no leading `www.` and should be
returned unchanged, comes back as `en.example.com`.  On hosts that do
start with `www.` (and on non-URL titles) the code behaves as
specified. -/
theorem claim_C7_bug :
    format_title "https://en.www.example.com/page" = "en.example.com"
    ∧ pyStartsWith "en.www.example.com" "www." = false
    ∧ format_title "https://www.test-site.org/page" = "test-site.org"
    ∧ format_title "Regular Title" = "Regular Title"
    ∧ format_title "" = "" := by
  refine ⟨by decide, by decide, by decide, by decide, by decide⟩

/-- C8 (code bug): the two status-marker branches donate
`json.dumps(<string literal>)`, i.e. a JSON *string* whose characters
spell the marker object, not the marker object itself: the donated
payload parses back as a JSON string and differs from
`json.dumps` of the object `\x7b"status": "no-search-data"\x7d` (the
declined-consent branch, by contrast, dumps a real dict).  The
donation key is `"\x7bsessionId\x7d-google-search-history"` as
specified. -/
theorem claim_C8_bug :
    no_search_data_value = "\"\x7b\\\"status\\\" : \\\"no-search-data\\\"\x7d\""
    ∧ jsonLoads no_search_data_value
        = some (.jstr "\x7b\"status\" : \"no-search-data\"\x7d")
    ∧ no_search_data_value ≠ json_dumps (.jobj [("status", .jstr "no-search-data")])
    ∧ no_takeout_found_value = "\"\x7b\\\"status\\\" : \\\"no-google-takeout-found\\\"\x7d\""
    ∧ jsonLoads no_takeout_found_value
        = some (.jstr "\x7b\"status\" : \"no-google-takeout-found\"\x7d")
    ∧ no_takeout_found_value
        ≠ json_dumps (.jobj [("status", .jstr "no-google-takeout-found")])
    ∧ donation_key "session" = "session-google-search-history" := by
  refine ⟨by decide, rfl, by decide, by decide, rfl, by decide, by decide⟩

/-- C2 is false as stated: the title filter is an `elif` chain in which
the Visited/aufgerufen stripping is tested first, so a record whose
title is `"Visited foo angesehen"` — which ends with `" angesehen"` —
is *kept* (with the `"Visited "` prefix stripped) and lands in the
click table; and a record whose title starts with `"Visited "` is *not*
always kept: with a Google-homepage `titleUrl` it is dropped from both
tables. -/
theorem claim_C2_counterexample :
    pyEndsWith "Visited foo angesehen" " angesehen" = true
    ∧ (extract_search_data (.vlist [⟨some "Search", some "Visited foo angesehen",
        some "https://example.com/a", some "2025-02-01T10:00:00Z",
        some ["Search"]⟩])).2.rows.length = 1
    ∧ pyStartsWith "Visited bar" "Visited " = true
    ∧ (extract_search_data (.vlist [⟨some "Search", some "Visited bar",
        some "https://www.google.com/", some "2025-02-01T10:00:00Z",
        some ["Search"]⟩])).1.rows = []
    ∧ (extract_search_data (.vlist [⟨some "Search", some "Visited bar",
        some "https://www.google.com/", some "2025-02-01T10:00:00Z",
        some ["Search"]⟩])).2.rows = [] :=
  ⟨by decide, by decide, by decide, by decide, by decide⟩

/-- C2 amended: for a well-formed record whose time parses into the
window, the title filter is an ordered chain — a leading `"Visited "`
is stripped first (record kept, up to the later homepage filter), else
a trailing `" aufgerufen"` is stripped (record kept, up to the homepage
filter), and only otherwise does a leading `"Viewed "` or trailing
`" angesehen"` drop the record from both output tables. -/
theorem claim_C2_amended (it : Item) (t : String) (ht : it.title = some t)
    (hwf : wfItem it = true) (ts : PTimestamp)
    (hts : pd_to_datetime (it.time.getD "") = some ts)
    (hwin : start_dt ≤ filterInstant ts ∧ filterInstant ts ≤ end_dt) :
    (pyStartsWith t "Visited " = true →
      pass1 [it] = ([{ it with title := some (pyDrop t 8) }],
        if is_google_homepage? (it.titleUrl.getD "") = some false
        then [{ it with title := some (pyDrop t 8) }] else []))
    ∧ (pyStartsWith t "Visited " = false → pyEndsWith t " aufgerufen" = true →
      pass1 [it] = ([{ it with title := some (pyDropRight t 11) }],
        if is_google_homepage? (it.titleUrl.getD "") = some false
        then [{ it with title := some (pyDropRight t 11) }] else []))
    ∧ (pyStartsWith t "Visited " = false → pyEndsWith t " aufgerufen" = false →
      (pyStartsWith t "Viewed " = true ∨ pyEndsWith t " angesehen" = true) →
      (pass1 [it]).2 = []
        ∧ extract_search_data (.vlist [it]) = (⟨searchCols, []⟩, ⟨clickCols, []⟩)) := by
  have hnw : ¬(filterInstant ts < start_dt ∨ filterInstant ts > end_dt) := by omega
  have hstep : step it =
      (if pyStartsWith t "Visited " then
        stepHome { it with title := some (pyDrop t 8) }
      else if pyEndsWith t " aufgerufen" then
        stepHome { it with title := some (pyDropRight t 11) }
      else if pyStartsWith t "Viewed " || pyEndsWith t " angesehen" then (it, false)
      else stepHome it) := by
    simp only [step, hts, ht, Option.getD_some]
    rw [if_pos hwf, if_neg hnw]
  refine ⟨?_, ?_, ?_⟩
  · intro hv
    rw [if_pos hv] at hstep
    rw [pass1_cons, hstep]
    rcases hh : is_google_homepage? (it.titleUrl.getD "") with _ | b
    · simp [stepHome, hh, pass1]
    · cases b <;> simp [stepHome, hh, pass1]
  · intro hv ha
    rw [if_neg (by simp [hv]), if_pos ha] at hstep
    rw [pass1_cons, hstep]
    rcases hh : is_google_homepage? (it.titleUrl.getD "") with _ | b
    · simp [stepHome, hh, pass1]
    · cases b <;> simp [stepHome, hh, pass1]
  · intro hv ha hva
    rw [if_neg (by simp [hv]), if_neg (by simp [ha]),
      if_pos (by rcases hva with h | h <;> simp [h])] at hstep
    have hrec : (pass1 [it]).2 = [] := by
      rw [pass1_cons, hstep]; simp [pass1]
    refine ⟨hrec, ?_⟩
    show ((pdDataFrame (pass2 1 (pass1 [it]).2).1).reindex searchCols,
      (pdDataFrame (pass2 1 (pass1 [it]).2).2).reindex clickCols) = _
    rw [hrec]
    rfl

/-- Witness for C2 amended: a concrete `"Visited ..."` record is kept
with the prefix stripped. -/
theorem claim_C2_amended_witness :
    (pass1 [⟨some "Search", some "Visited example website",
      some "https://example.com/x", some "2025-02-08T09:35:03.562Z",
      some ["Search"]⟩]).2
      = [⟨some "Search", some "example website", some "https://example.com/x",
          some "2025-02-08T09:35:03.562Z", some ["Search"]⟩] := by
  have h := (claim_C2_amended
    ⟨some "Search", some "Visited example website", some "https://example.com/x",
      some "2025-02-08T09:35:03.562Z", some ["Search"]⟩
    "Visited example website" rfl (by decide)
    ⟨2025, 2, 8, 9, 35, 3, 562000, some 0⟩ (by decide)
    ⟨by decide, by decide⟩).1 (by decide)
  have h2 := congrArg Prod.snd h
  simp only [show is_google_homepage?
      ((Item.mk (some "Search") (some "Visited example website")
        (some "https://example.com/x") (some "2025-02-08T09:35:03.562Z")
        (some ["Search"])).titleUrl.getD "") = some false from by decide,
    if_true, if_pos] at h2
  exact h2

/-- C10 is false as stated: the in-place title rewrite happens only for
records that already passed the field-presence check and the date
filter; a record whose title starts with `"Visited "` but whose time
lies outside the window is left untouched, so not every
`"Visited "`-titled record is overwritten. -/
theorem claim_C10_counterexample :
    pyStartsWith "Visited foo" "Visited " = true
    ∧ extract_input_after [⟨some "Search", some "Visited foo",
        some "https://example.com/", some "2020-01-01T00:00:00Z",
        some ["Search"]⟩]
      = [⟨some "Search", some "Visited foo", some "https://example.com/",
          some "2020-01-01T00:00:00Z", some ["Search"]⟩] :=
  ⟨by decide, by decide⟩

/-- C10 amended: `extract_search_data` does mutate its input — the
post-extraction state of the caller's list is the per-record post-state
of the first loop, which rewrites `title` in place (stripping a leading
`"Visited "`, else a trailing `" aufgerufen"`) exactly for the records
that pass the field-presence check and whose parsed time lies in the
window, leaves every other record unchanged, and never changes any
other field. -/
theorem claim_C10_amended (items : List Item) :
    extract_input_after items = items.map (fun it => (step it).1)
    ∧ (∀ it : Item,
        ((step it).1.header = it.header ∧ (step it).1.titleUrl = it.titleUrl
          ∧ (step it).1.time = it.time ∧ (step it).1.products = it.products)
        ∧ (∀ t, it.title = some t → wfItem it = true →
            ∀ ts, pd_to_datetime (it.time.getD "") = some ts →
              start_dt ≤ filterInstant ts → filterInstant ts ≤ end_dt →
              (pyStartsWith t "Visited " = true →
                (step it).1.title = some (pyDrop t 8))
              ∧ (pyStartsWith t "Visited " = false →
                  pyEndsWith t " aufgerufen" = true →
                  (step it).1.title = some (pyDropRight t 11))
              ∧ (pyStartsWith t "Visited " = false →
                  pyEndsWith t " aufgerufen" = false →
                  (step it).1.title = some t))
        ∧ ((wfItem it = false ∨ pd_to_datetime (it.time.getD "") = none
            ∨ (∃ ts, pd_to_datetime (it.time.getD "") = some ts ∧
                (filterInstant ts < start_dt ∨ end_dt < filterInstant ts))) →
            (step it).1 = it)) := by
  refine ⟨pass1_fst items, ?_⟩
  intro it
  refine ⟨step_preserves it, ?_, ?_⟩
  · intro t ht hwf ts hts hw1 hw2
    have hnw : ¬(filterInstant ts < start_dt ∨ filterInstant ts > end_dt) := by omega
    have hstep : step it =
        (if pyStartsWith t "Visited " then
          stepHome { it with title := some (pyDrop t 8) }
        else if pyEndsWith t " aufgerufen" then
          stepHome { it with title := some (pyDropRight t 11) }
        else if pyStartsWith t "Viewed " || pyEndsWith t " angesehen" then (it, false)
        else stepHome it) := by
      simp only [step, hts, ht, Option.getD_some]
      rw [if_pos hwf, if_neg hnw]
    refine ⟨?_, ?_, ?_⟩
    · intro hv
      rw [if_pos hv] at hstep
      rw [hstep, stepHome_fst]
    · intro hv ha
      rw [if_neg (by simp [hv]), if_pos ha] at hstep
      rw [hstep, stepHome_fst]
    · intro hv ha
      rw [if_neg (by simp [hv]), if_neg (by simp [ha])] at hstep
      by_cases hvw : (pyStartsWith t "Viewed " || pyEndsWith t " angesehen") = true
      · rw [if_pos hvw] at hstep
        rw [hstep]
        exact ht
      · rw [if_neg hvw] at hstep
        rw [hstep, stepHome_fst]
        exact ht
  · intro hcase
    rcases hcase with hwf | hnone | ⟨ts, hts, hout⟩
    · simp only [step]
      rw [if_neg (by simp [hwf])]
    · rcases hw : wfItem it with _ | _
      · simp only [step]
        rw [if_neg (by simp [hw])]
      · simp only [step, hnone]
        rw [if_pos hw]
    · rcases hw : wfItem it with _ | _
      · simp only [step]
        rw [if_neg (by simp [hw])]
      · simp only [step, hts]
        rw [if_pos hw, if_pos (by omega)]

/-- Witness for C10 amended: a visited record inside the window has its
title overwritten in the post-extraction input list. -/
theorem claim_C10_amended_witness :
    extract_input_after [⟨some "Search", some "Visited foo",
      some "https://example.com/", some "2025-02-01T10:00:00Z",
      some ["Search"]⟩]
      = [⟨some "Search", some "Visited foo", some "https://example.com/",
          some "2025-02-01T10:00:00Z", some ["Search"]⟩].map (fun it => (step it).1)
    ∧ (step (⟨some "Search", some "Visited foo", some "https://example.com/",
        some "2025-02-01T10:00:00Z", some ["Search"]⟩ : Item)).1.title
      = some (pyDrop "Visited foo" 8) :=
  ⟨(claim_C10_amended _).1,
   (((claim_C10_amended
      [⟨some "Search", some "Visited foo", some "https://example.com/",
        some "2025-02-01T10:00:00Z", some ["Search"]⟩]).2
      ⟨some "Search", some "Visited foo", some "https://example.com/",
        some "2025-02-01T10:00:00Z", some ["Search"]⟩).2.1
      "Visited foo" rfl (by decide) ⟨2025, 2, 1, 10, 0, 0, 0, some 0⟩
      (by decide) (by decide) (by decide)).1 (by decide)⟩

set_option maxRecDepth 100000 in
/-- C3: each surviving record whose `title_url`, resolved through the
Google redirect wrapper (`www.google.`-hosted `/url` with a `q`
parameter yields the decoded `q` value, otherwise unchanged), is
classified as a Google search URL (`www.google.`-hosted host, path
exactly `/search`, `q` present) is emitted as a search row whose query
is the decoded first `q` value; every other surviving record is emitted
as a click row whose link is the resolved URL.  The classifier always
supplies a query when it reports a search, and `+`/`%XX` escapes
(including non-ASCII) are decoded. -/
theorem claim_C3 :
    (∀ (items : List Item) (k : Nat) (hk : k < (pass1 items).2.length),
      (isSearchRec ((pass1 items).2.get ⟨k, hk⟩) = true →
        searchRowOf (1 + k) ((pass1 items).2.get ⟨k, hk⟩)
          ∈ (extract_search_data (.vlist items)).1.rows)
      ∧ (isSearchRec ((pass1 items).2.get ⟨k, hk⟩) = false →
        clickRowOf (1 + k) ((pass1 items).2.get ⟨k, hk⟩)
          ∈ (extract_search_data (.vlist items)).2.rows))
    ∧ (∀ u, (is_google_search_url u).1 = true →
        ∃ q, (is_google_search_url u).2 = some q)
    ∧ is_google_search_url "https://www.google.de/search?q=m%C3%BCnchen"
        = (true, some "münchen")
    ∧ is_google_search_url "https://www.google.com/search?q=test+query&hl=en"
        = (true, some "test query")
    ∧ is_google_search_url "https://maps.google.com/search?q=test" = (false, none)
    ∧ resolve_google_redirect
        "https://www.google.com/url?q=https://www.tagesschau.de/inland/bundestagswahl/tv-duell-habeck-absage-100.html&usg=AOvVaw14OeCEYWWJzc6cqvroGnXB"
        = "https://www.tagesschau.de/inland/bundestagswahl/tv-duell-habeck-absage-100.html"
    ∧ resolve_google_redirect "https://example.com/test" = "https://example.com/test" := by
  refine ⟨?_, ?_, by decide, by decide, by decide, by decide, by decide⟩
  · intro items k hk
    constructor
    · intro hs
      rw [(extract_rows_eq items).1]
      exact pass2_mem_search (pass1 items).2 1 k hk hs
    · intro hs
      rw [(extract_rows_eq items).2]
      exact pass2_mem_click (pass1 items).2 1 k hk hs
  · intro u h
    simp only [is_google_search_url] at h ⊢
    repeat' split at h
    all_goals simp_all

/-- Witness for C3: a concrete search record lands in the search table
and a concrete non-search record lands in the click table. -/
theorem claim_C3_witness :
    searchRowOf (1 + 0) ((pass1 [⟨some "Google Suche", some "Some search",
        some "https://www.google.com/search?q=test+query",
        some "2025-02-09T14:39:34.364Z", some ["Google Suche"]⟩]).2.get ⟨0, by decide⟩)
      ∈ (extract_search_data (.vlist [⟨some "Google Suche", some "Some search",
        some "https://www.google.com/search?q=test+query",
        some "2025-02-09T14:39:34.364Z", some ["Google Suche"]⟩])).1.rows
    ∧ clickRowOf (1 + 0) ((pass1 [⟨some "Google Suche", some "Test Result Page",
        some "https://example.com/test",
        some "2025-02-09T14:39:42.587Z", some ["Google Suche"]⟩]).2.get ⟨0, by decide⟩)
      ∈ (extract_search_data (.vlist [⟨some "Google Suche", some "Test Result Page",
        some "https://example.com/test",
        some "2025-02-09T14:39:42.587Z", some ["Google Suche"]⟩])).2.rows :=
  ⟨(claim_C3.1 [⟨some "Google Suche", some "Some search",
      some "https://www.google.com/search?q=test+query",
      some "2025-02-09T14:39:34.364Z", some ["Google Suche"]⟩] 0 (by decide)).1
      (by decide),
   (claim_C3.1 [⟨some "Google Suche", some "Test Result Page",
      some "https://example.com/test",
      some "2025-02-09T14:39:42.587Z", some ["Google Suche"]⟩] 0 (by decide)).2
      (by decide)⟩

/-- C5: the index cells of the two output tables are, together, exactly
the decimal strings `1..N` for `N` the number of records surviving the
first loop — one shared counter assigned in original order before the
split — and no index occurs in both tables. -/
theorem claim_C5 (items : List Item) :
    ((extract_search_data (.vlist items)).1.rows.map rowNummer
        ++ (extract_search_data (.vlist items)).2.rows.map rowNummer).Perm
      ((List.range' 1 (pass1 items).2.length).map pyStr)
    ∧ ∀ s, s ∈ (extract_search_data (.vlist items)).1.rows.map rowNummer →
        s ∉ (extract_search_data (.vlist items)).2.rows.map rowNummer := by
  rw [(extract_rows_eq items).1, (extract_rows_eq items).2]
  have hperm := pass2_nummer_perm (pass1 items).2 1
  refine ⟨hperm, ?_⟩
  have hnd : (((pass2 1 (pass1 items).2).1.map rowNummer)
      ++ ((pass2 1 (pass1 items).2).2.map rowNummer)).Nodup := by
    refine hperm.symm.nodup ?_
    exact List.Nodup.map (fun a b h => pyStr_inj h) (List.nodup_range' 1 _)
  exact fun s hs hc => (List.nodup_append.mp hnd).2.2 hs hc

/-- Witness for C5: three eligible records (search, click, search)
receive the shared indices 1, 2, 3, the click row taking "2", which
appears in no search row. -/
theorem claim_C5_witness :
    ((extract_search_data (.vlist [⟨some "Google Suche", some "First search",
        some "https://www.google.com/search?q=first",
        some "2025-02-09T14:39:34.364Z", some ["Google Suche"]⟩,
      ⟨some "Google Suche", some "Test Result Page", some "https://example.com/test",
        some "2025-02-09T14:39:42.587Z", some ["Google Suche"]⟩,
      ⟨some "Google Suche", some "Second search",
        some "https://www.google.com/search?q=second",
        some "2025-02-09T14:40:00.000Z", some ["Google Suche"]⟩])).1.rows.map rowNummer
        ++ (extract_search_data (.vlist [⟨some "Google Suche", some "First search",
        some "https://www.google.com/search?q=first",
        some "2025-02-09T14:39:34.364Z", some ["Google Suche"]⟩,
      ⟨some "Google Suche", some "Test Result Page", some "https://example.com/test",
        some "2025-02-09T14:39:42.587Z", some ["Google Suche"]⟩,
      ⟨some "Google Suche", some "Second search",
        some "https://www.google.com/search?q=second",
        some "2025-02-09T14:40:00.000Z", some ["Google Suche"]⟩])).2.rows.map rowNummer).Perm
      ((List.range' 1 (pass1 [⟨some "Google Suche", some "First search",
        some "https://www.google.com/search?q=first",
        some "2025-02-09T14:39:34.364Z", some ["Google Suche"]⟩,
      ⟨some "Google Suche", some "Test Result Page", some "https://example.com/test",
        some "2025-02-09T14:39:42.587Z", some ["Google Suche"]⟩,
      ⟨some "Google Suche", some "Second search",
        some "https://www.google.com/search?q=second",
        some "2025-02-09T14:40:00.000Z", some ["Google Suche"]⟩]).2.length).map pyStr)
    ∧ "1" ∉ (extract_search_data (.vlist [⟨some "Google Suche", some "First search",
        some "https://www.google.com/search?q=first",
        some "2025-02-09T14:39:34.364Z", some ["Google Suche"]⟩,
      ⟨some "Google Suche", some "Test Result Page", some "https://example.com/test",
        some "2025-02-09T14:39:42.587Z", some ["Google Suche"]⟩,
      ⟨some "Google Suche", some "Second search",
        some "https://www.google.com/search?q=second",
        some "2025-02-09T14:40:00.000Z", some ["Google Suche"]⟩])).2.rows.map rowNummer :=
  ⟨(claim_C5 _).1,
   (claim_C5 [⟨some "Google Suche", some "First search",
      some "https://www.google.com/search?q=first",
      some "2025-02-09T14:39:34.364Z", some ["Google Suche"]⟩,
    ⟨some "Google Suche", some "Test Result Page", some "https://example.com/test",
      some "2025-02-09T14:39:42.587Z", some ["Google Suche"]⟩,
    ⟨some "Google Suche", some "Second search",
      some "https://www.google.com/search?q=second",
      some "2025-02-09T14:40:00.000Z", some ["Google Suche"]⟩]).2 "1" (by decide)⟩

/-- C9: the date cell of every output row is formatted from the
record's time as re-parsed, without the CET conversion the range filter
used (a naive time as-is, an aware time in its original zone) — so a
record at 2025-02-01T23:30:00Z, which is inside the window and whose
CET civil date is 2025-02-02, is emitted dated "01-02-2025", not the
CET date "02-02-2025" the filter was evaluated against. -/
theorem claim_C9 :
    (∀ (items : List Item) (row : Row),
        row ∈ (extract_search_data (.vlist items)).1.rows
          ∨ row ∈ (extract_search_data (.vlist items)).2.rows →
        ∃ it ∈ (pass1 items).2, row.lookup "Datum" = some (dateOf it))
    ∧ (∃ ts, pd_to_datetime "2025-02-01T23:30:00Z" = some ts
        ∧ start_dt ≤ filterInstant ts ∧ filterInstant ts ≤ end_dt
        ∧ strftime_dmY ts = "01-02-2025"
        ∧ cetCivilDmY (filterInstant ts) = "02-02-2025"
        ∧ strftime_dmY ts ≠ cetCivilDmY (filterInstant ts))
    ∧ ((extract_search_data (.vlist [⟨some "Search", some "Click",
        some "https://example.com/p", some "2025-02-01T23:30:00Z",
        some ["Search"]⟩])).2.rows.map (fun r => r.lookup "Datum"))
        = [some "01-02-2025"] := by
  refine ⟨?_, ⟨⟨2025, 2, 1, 23, 30, 0, 0, some 0⟩, by decide, by decide, by decide,
    by decide, by decide, by decide⟩, by decide⟩
  intro items row h
  rw [(extract_rows_eq items).1, (extract_rows_eq items).2] at h
  rcases h with h | h
  · exact pass2_search_src _ 1 row h
  · exact pass2_click_src _ 1 row h

/-- Witness for C9: the universal part applied to the concrete
one-record list of the divergence example. -/
theorem claim_C9_witness :
    ∃ it ∈ (pass1 [⟨some "Search", some "Click", some "https://example.com/p",
        some "2025-02-01T23:30:00Z", some ["Search"]⟩]).2,
      ([("Datum", "01-02-2025"), ("Nummer", "1"), ("Suchergebnis", "Click"),
        ("Link", "https://example.com/p")] : Row).lookup "Datum" = some (dateOf it) :=
  claim_C9.1 [⟨some "Search", some "Click", some "https://example.com/p",
      some "2025-02-01T23:30:00Z", some ["Search"]⟩]
    [("Datum", "01-02-2025"), ("Nummer", "1"), ("Suchergebnis", "Click"),
      ("Link", "https://example.com/p")]
    (Or.inr (by decide))

/-- C4: the locator tries every JSON-named member through the JSON
parser in listing order, then every HTML-named member through the HTML
parser, returning the first non-empty parse (so a bad JSON member is
skipped in favour of a later good one, and JSON wins over HTML); when
both passes fail it raises `NoSearchData` exactly when some HTML
member's UTF-8 text contains the literal `"Google"`, and
`TakeoutNotFound` otherwise — in particular an archive with only an
unrelated JSON member and no HTML member raises `TakeoutNotFound`, and
an archive whose HTML contains `"Google"` but no matching activity
block raises `NoSearchData`. -/
theorem claim_C4 :
    (∀ entries : List ZipEntry,
      (entries.filter (fun e => pyEndsWith (pyLower e.name) ".json")).all
          (fun e => (parse_google_search_json e.content).isNone) = true →
      (entries.filter (fun e => pyEndsWith (pyLower e.name) ".html")).all
          (fun e => ((utf8DecodeStrict e.content).bind
            (fun _ => parse_google_search_html e.htmlCells)).isNone) = true →
      find_google_search_export entries =
        (if (entries.filter (fun e => pyEndsWith (pyLower e.name) ".html")).any
            (fun e => match utf8DecodeStrict e.content with
              | some txt => containsGoogle txt
              | none => false)
         then LocateResult.noSearchData else LocateResult.takeoutNotFound))
    ∧ find_google_search_export [⟨"some_file.json",
        strToBytes "[\x7b\"wrong\": \"structure\"\x7d]", []⟩]
        = LocateResult.takeoutNotFound
    ∧ find_google_search_export [⟨"index.html",
        strToBytes "<!DOCTYPE html><html><head><meta charset=\"UTF-8\"><title>Google Data Export Archive Contents</title>", []⟩]
        = LocateResult.noSearchData
    ∧ find_google_search_export [⟨"invalid.json",
        strToBytes "[\x7b\"wrong\": \"structure\"\x7d]", []⟩,
      ⟨"Takeout/MyActivity.json",
        strToBytes "[\x7b\"header\": \"h\", \"title\": \"t\", \"titleUrl\": \"u\", \"time\": \"x\", \"products\": [\"Search\"]\x7d]", []⟩]
        = LocateResult.foundJson [.jobj [("header", .jstr "h"), ("title", .jstr "t"),
            ("titleUrl", .jstr "u"), ("time", .jstr "x"),
            ("products", .jarr [.jstr "Search"])]]
    ∧ find_google_search_export [⟨"MyActivity.html", strToBytes "<html>Google Suche</html>",
        [⟨["Google Suche"], [⟨some "https://www.google.com/search?q=a",
          ["Gesucht nach:", "a", "10.01.2025, 17:21:55 MEZ"]⟩]⟩]⟩,
      ⟨"Takeout/MyActivity.json",
        strToBytes "[\x7b\"header\": \"h\", \"title\": \"t\", \"titleUrl\": \"u\", \"time\": \"x\", \"products\": [\"Search\"]\x7d]", []⟩]
        = LocateResult.foundJson [.jobj [("header", .jstr "h"), ("title", .jstr "t"),
            ("titleUrl", .jstr "u"), ("time", .jstr "x"),
            ("products", .jarr [.jstr "Search"])]] := by
  refine ⟨?_, rfl, rfl, rfl, rfl⟩
  intro entries hj hh
  have h1 : (entries.filter (fun e => pyEndsWith (pyLower e.name) ".json")).findSome?
      (fun e => parse_google_search_json e.content) = none := by
    rw [List.findSome?_eq_none_iff]
    intro x hx
    exact Option.isNone_iff_eq_none.mp ((List.all_eq_true.mp hj) x hx)
  have h2 : (entries.filter (fun e => pyEndsWith (pyLower e.name) ".html")).findSome?
      (fun e => (utf8DecodeStrict e.content).bind
        (fun _ => parse_google_search_html e.htmlCells)) = none := by
    rw [List.findSome?_eq_none_iff]
    intro x hx
    exact Option.isNone_iff_eq_none.mp ((List.all_eq_true.mp hh) x hx)
  simp only [find_google_search_export, h1, h2]

/-- Witness for C4: an archive whose JSON member is unrelated and whose
HTML member contains "Google" but no activity blocks ends in
`NoSearchData`. -/
theorem claim_C4_witness :
    find_google_search_export [⟨"data.json", strToBytes "[1, 2]", []⟩,
      ⟨"page.html", strToBytes "<p>Google</p>", []⟩]
      = LocateResult.noSearchData := by
  have h := claim_C4.1 [⟨"data.json", strToBytes "[1, 2]", []⟩,
      ⟨"page.html", strToBytes "<p>Google</p>", []⟩] (by decide) (by decide)
  rw [h]
  rfl

end Port
